import Mathlib

/-!
Verification of the core numerics of the PrevisorCrises repository.

The Python sources are shallowly embedded over `ℚ`.  Transcendental
library routines that the code calls (scipy's `norm.cdf`, `norm.pdf`,
`np.sqrt`, `np.log`, `np.cos`) are modelled as explicit function
parameters, and the properties a claim needs from them (monotonicity,
positivity, ...) are stated as hypotheses; every piece of arithmetic
written in the repository itself is embedded literally.  The scipy
optimizers (`differential_evolution`, `minimize`) are modelled by
universally quantifying over their result, constrained to the bounds
the code passes them, which is the guarantee those routines document.
-/

namespace PrevisorCrises

/-- The literal guard constant `1e-10` used throughout the sources. -/
def eps10 : ℚ := 1 / 10000000000

/-- The guard constant is positive. -/
lemma eps10_pos : 0 < eps10 := by norm_num [eps10]

/-- Embedding of `np.clip(x, lo, hi)`. -/
def npClip (x lo hi : ℚ) : ℚ :=
  if x < lo then lo else if x > hi then hi else x

/-- For ordered cut points, `np.clip` is the min/max combination. -/
lemma npClip_eq_min_max (x lo hi : ℚ) (h : lo ≤ hi) :
    npClip x lo hi = min hi (max lo x) := by
  unfold npClip
  rcases lt_or_le x lo with h1 | h1
  · rw [if_pos h1, max_eq_left h1.le, min_eq_right h]
  · rw [if_neg (not_lt.mpr h1), max_eq_right h1]
    rcases lt_or_le hi x with h2 | h2
    · rw [if_pos h2, min_eq_left h2.le]
    · rw [if_neg (not_lt.mpr h2), min_eq_right h2]

/-!
## `EstimadorTempoCritico._calcular_probabilidade_crise`
(`bibliotecas/ltbolha/tempo_critico.py`, lines 322-338)

`norm.cdf` is scipy's standard normal CDF; it enters as the parameter
`cdf`.  Everything else is the source arithmetic verbatim: the horizon
constant 30, the guard `1e-10`, and the final `np.clip(_, 0, 1)`.
-/

def calcular_probabilidade_crise (cdf : ℚ → ℚ) (dias_ate_tc incerteza : ℚ) : ℚ :=
  if dias_ate_tc ≤ 0 then 1
  else
    let horizonte : ℚ := 30
    let z_score := (horizonte - dias_ate_tc) / (incerteza + eps10)
    npClip (cdf z_score) 0 1

/-- The crisis probability exactly as the specification words it: 1.0 when
the distance is ≤ 0, otherwise the CDF at `(30 - d) / (σ + ε)` clipped to
the unit interval. -/
def probabilidade_crise_spec (cdf : ℚ → ℚ) (d σ : ℚ) : ℚ :=
  if d ≤ 0 then 1
  else min 1 (max 0 (cdf ((30 - d) / (σ + eps10))))

/-!
## `EstimadorTempoCritico.nivel_urgencia`
(`bibliotecas/ltbolha/tempo_critico.py`, lines 138-165)
-/

def nivel_urgencia (tc_estimado tempo_atual : ℚ) : String × ℚ :=
  let dias := tc_estimado - tempo_atual
  if dias < 0 then ("EXPIRADO", dias)
  else if dias < 5 then ("IMEDIATO", dias)
  else if dias < 20 then ("URGENTE", dias)
  else if dias < 60 then ("MODERADO", dias)
  else ("BAIXO", dias)

/-- Urgency levels exactly as the claim words them: expired when `d ≤ 0`,
immediate when `0 < d < 5`, urgent when `5 ≤ d < 20`, moderate when
`20 ≤ d < 60`, low otherwise. -/
def nivel_urgencia_reivindicado (dias : ℚ) : String :=
  if dias ≤ 0 then "EXPIRADO"
  else if dias < 5 then "IMEDIATO"
  else if dias < 20 then "URGENTE"
  else if dias < 60 then "MODERADO"
  else "BAIXO"

/-- Urgency levels as amended: expired only for strictly negative remaining
days, immediate on `[0, 5)`, the other buckets unchanged. -/
def nivel_urgencia_emendado (dias : ℚ) : String :=
  if dias < 0 then "EXPIRADO"
  else if dias < 5 then "IMEDIATO"
  else if dias < 20 then "URGENTE"
  else if dias < 60 then "MODERADO"
  else "BAIXO"

/-!
## `ModeloMarkovSwitching.duracao_esperada`
(`bibliotecas/ltregime/markov_switching.py`, lines 246-263)

`duracoes = 1 / (1 - np.diag(P) + 1e-10)`.
-/

def duracao_esperada {k : ℕ} (P : Fin k → Fin k → ℚ) : Fin k → ℚ :=
  fun i => 1 / (1 - P i i + eps10)

/-!
## `AnalisadorLogPeriodico.ajustar_lppl`, critical-time part
(`bibliotecas/ltbolha/log_periodicidade.py`, lines 57-122)

The optimizer searches inside `bounds`; its `tc` component is therefore an
arbitrary value between `tc_min` and `tc_max`, which the code then
de-normalizes with `tempos[0] + tc * (tempos[-1] - tempos[0])`.
-/

def lppl_tc_bounds (restricao_tc : Option (ℚ × ℚ)) : ℚ × ℚ :=
  match restricao_tc with
  | none => (101 / 100, 3 / 2)
  | some r => r

def desnormalizar_tc (tempos0 temposUlt tc_norm : ℚ) : ℚ :=
  tempos0 + tc_norm * (temposUlt - tempos0)

/-!
## `EstimadorTempoCritico._estimar_tc_volatilidade`, return path
(`bibliotecas/ltbolha/tempo_critico.py`, lines 275-320)

The decisive part of the claim is which local variable names each branch
binds before `return tc_vol, confianca` executes, so the branches after
the growth-rate regression are embedded with an explicit local-variable
environment mapping Python identifier spellings to values.  The `b > 0`
branches bind the spelling `confianca`; the `else` branch binds the
differently spelled `confiança` (line 318).  The return statement reads
`confianca` and raises `NameError` when that spelling is unbound.
-/

def atribuir (env : List (String × ℚ)) (nome : String) (v : ℚ) : List (String × ℚ) :=
  (nome, v) :: env

def procurar (env : List (String × ℚ)) (nome : String) : Option ℚ :=
  (env.find? (fun p => p.1 == nome)).map Prod.snd

def retorno_volatilidade (env : List (String × ℚ)) : Except String (ℚ × ℚ) :=
  match procurar env "tc_vol", procurar env "confianca" with
  | some tc, some conf => Except.ok (tc, conf)
  | _, _ => Except.error "NameError"

def estimar_tc_volatilidade_retorno (logQ : ℚ → ℚ)
    (b sigma_atual t_atual ultimoTempo horizonte_maximo : ℚ) :
    Except String (ℚ × ℚ) :=
  let env0 : List (String × ℚ) := []
  let env :=
    if b > 0 then
      let sigma_critico : ℚ := 1
      if sigma_atual > 0 then
        atribuir (atribuir env0 "tc_vol"
            (t_atual + logQ (sigma_critico / sigma_atual) / b))
          "confianca" (min (b * 10) (8 / 10))
      else
        atribuir (atribuir env0 "tc_vol"
            (ultimoTempo + horizonte_maximo / 2))
          "confianca" (3 / 10)
    else
      atribuir (atribuir env0 "tc_vol" (ultimoTempo + horizonte_maximo))
        "confiança" (1 / 10)
  retorno_volatilidade env

/-- The bare `except:` in `estimar_multiplos_metodos` turns a raised
exception into exclusion of the method; a normal return is kept. -/
def excecaoParaOption {α : Type} : Except String α → Option α
  | Except.ok a => some a
  | Except.error _ => none

/-!
## `EstimadorTempoCritico.estimar_multiplos_metodos`
(`bibliotecas/ltbolha/tempo_critico.py`, lines 59-117)

Each sub-estimator runs under `try/except`; its outcome is a
`(tc, confidence)` pair or a failure, modelled as `Option (ℚ × ℚ)`.
`np.sqrt` enters as the parameter `sqrtQ` and `norm.cdf` as `cdf`.
-/

structure ResultadoConsenso where
  tc_medio : ℚ
  estimativas : List (String × ℚ)
  probabilidade_crise : ℚ

def estimar_multiplos_metodos (sqrtQ cdf : ℚ → ℚ)
    (rLppl rSing rOu rVol : Option (ℚ × ℚ)) (ultimoTempo : ℚ) :
    Except String ResultadoConsenso :=
  let metodos : List (String × Option (ℚ × ℚ)) :=
    [("lppl", rLppl), ("singularidade", rSing),
     ("ornstein_uhlenbeck", rOu), ("volatilidade", rVol)]
  let sucessos := metodos.filterMap
    (fun p => p.2.map (fun tcConf => (p.1, tcConf.1, tcConf.2)))
  if sucessos.isEmpty then
    Except.error "Todos os metodos de estimacao falharam"
  else
    let pesosSoma := (sucessos.map (fun s => s.2.2)).sum
    let pesosNorm := sucessos.map (fun s => s.2.2 / pesosSoma)
    let tcs := sucessos.map (fun s => s.2.1)
    let tc_medio := (List.zipWith (fun t w => t * w) tcs pesosNorm).sum
    let tc_var := (List.zipWith (fun w t => w * (t - tc_medio) ^ 2) pesosNorm tcs).sum
    let tc_std := sqrtQ tc_var
    let dias_ate_tc := tc_medio - ultimoTempo
    Except.ok
      { tc_medio := tc_medio
        estimativas := sucessos.map (fun s => (s.1, s.2.1))
        probabilidade_crise := calcular_probabilidade_crise cdf dias_ate_tc tc_std }

/-- Is a consensus run successful? -/
def consensoOk {α : Type} : Except String α → Bool
  | Except.ok _ => true
  | Except.error _ => false

/-- Method tags that survive into the weighted combination, given which
sub-estimators succeeded. -/
def tagsSobreviventes (rLppl rSing rOu rVol : Option (ℚ × ℚ)) : List String :=
  (if rLppl.isSome then ["lppl"] else []) ++
  (if rSing.isSome then ["singularidade"] else []) ++
  (if rOu.isSome then ["ornstein_uhlenbeck"] else []) ++
  (if rVol.isSome then ["volatilidade"] else [])

/-!
## `ModeloMarkovSwitching.prever_regime`
(`bibliotecas/ltregime/markov_switching.py`, lines 172-205)

The stored filtered probabilities and transition matrix come from a prior
fit; the method receives them, plus the optional `dados` argument whose
influence the claim is about.
-/

def vProdMFin {k : ℕ} (v : Fin k → ℚ) (P : Fin k → Fin k → ℚ) : Fin k → ℚ :=
  fun j => Finset.univ.sum (fun i => v i * P i j)

def prever_regime {k : ℕ} (ajustado : Bool) (ultimaFiltrada : Fin k → ℚ)
    (P : Fin k → Fin k → ℚ) (dados : Option (List ℚ)) (horizonte : ℕ) :
    Except String (Fin k → ℚ) :=
  if ajustado = false then Except.error "Modelo nao ajustado"
  else
    let prob_atual :=
      match dados with
      | some _ => ultimaFiltrada
      | none => ultimaFiltrada
    Except.ok ((fun v => vProdMFin v P)^[horizonte] prob_atual)

/-!
## `ModeloMarkovSwitching.ajustar`
(`bibliotecas/ltregime/markov_switching.py`, lines 33-170)

Full embedding of the EM fit.  Scipy's `norm.pdf` enters as the parameter
`pdfQ` (arguments: observation, location, scale), `np.sqrt` as `sqrtQ`,
`np.log` as `logQ`.  A probability row is a `List ℚ` of length `k`; the
trace matrices are lists of rows.  `-np.inf` (the initial previous
log-likelihood) is modelled as `none`.
-/

/-- Row normalization `v / (np.sum(v) + 1e-10)` used at lines 87, 102, 106
and 137 of the source. -/
def normEps (linha : List ℚ) : List ℚ :=
  linha.map (fun x => x / (linha.sum + eps10))

/-- Exact row normalization `v / np.sum(v)` used at line 75 of the source
(the only normalization without the guard). -/
def normExato (linha : List ℚ) : List ℚ :=
  linha.map (fun x => x / linha.sum)

/-- Column-wise sum of a list of rows (`np.sum(_, axis=0)`). -/
def somaColunas (linhas : List (List ℚ)) (k : ℕ) : List ℚ :=
  linhas.foldl (fun acc r => List.zipWith (· + ·) acc r) (List.replicate k 0)

/-- Row-vector/matrix product (`v @ P`, equivalently the inner sums of the
forward recursion at lines 80-82). -/
def vProdM (v : List ℚ) (P : List (List ℚ)) (k : ℕ) : List ℚ :=
  somaColunas (List.zipWith (fun vi linha => linha.map (fun pij => vi * pij)) v P) k

/-- `np.percentile` with the default linear interpolation. -/
def npPercentile (dados : List ℚ) (q : ℚ) : ℚ :=
  let s := dados.mergeSort (· ≤ ·)
  let n := s.length
  let pos := ((n : ℚ) - 1) * q / 100
  let i := (⌊pos⌋).toNat
  let frac := pos - (⌊pos⌋ : ℚ)
  let lo := s.getD i 0
  let hi := s.getD (i + 1) lo
  lo + frac * (hi - lo)

/-- `np.linspace a b k` (endpoint included; a single sample is `[a]`). -/
def npLinspace (a b : ℚ) (k : ℕ) : List ℚ :=
  if k = 1 then [a]
  else (List.range k).map (fun i => a + (b - a) * (i : ℚ) / ((k : ℚ) - 1))

/-- Population variance `np.var`. -/
def npVar (dados : List ℚ) : ℚ :=
  let media := dados.sum / (dados.length : ℚ)
  (dados.map (fun x => (x - media) ^ 2)).sum / (dados.length : ℚ)

/-- Forward pass (lines 69-87): the first row is normalized exactly, every
later row carries the `1e-10` guard. -/
def emForward (pdfQ : ℚ → ℚ → ℚ → ℚ) (sqrtQ : ℚ → ℚ)
    (medias variancias : List ℚ) (P : List (List ℚ)) (piV : List ℚ) (k : ℕ) :
    List ℚ → List (List ℚ)
  | [] => []
  | d0 :: resto =>
    let a0 := normExato (List.zipWith
      (fun pj mv => pj * pdfQ d0 mv.1 (sqrtQ mv.2)) piV (medias.zip variancias))
    resto.scanl (fun aPrev d =>
      normEps (List.zipWith (fun s mv => s * pdfQ d mv.1 (sqrtQ mv.2))
        (vProdM aPrev P k) (medias.zip variancias))) a0

/-- Backward pass (lines 90-102): the last row is all ones, every earlier
row sums transition, emission and successor values and is normalized with
the guard. -/
def emBackward (pdfQ : ℚ → ℚ → ℚ → ℚ) (sqrtQ : ℚ → ℚ)
    (medias variancias : List ℚ) (P : List (List ℚ)) (k : ℕ) :
    List ℚ → List (List ℚ)
  | [] => []
  | [_] => [List.replicate k 1]
  | _ :: d2 :: resto =>
    let bs := emBackward pdfQ sqrtQ medias variancias P k (d2 :: resto)
    let bProx := bs.headD (List.replicate k 1)
    let linha := normEps (P.map (fun Pi =>
      ((Pi.zip ((medias.zip variancias).zip bProx)).map
        (fun q => q.1 * pdfQ d2 q.2.1.1 (sqrtQ q.2.1.2) * q.2.2)).sum))
    linha :: bs

/-- Smoothed probabilities (lines 105-106): elementwise product of forward
and backward rows, normalized with the guard. -/
def emSuavizadas (alpha beta : List (List ℚ)) : List (List ℚ) :=
  List.zipWith (fun a b => normEps (List.zipWith (· * ·) a b)) alpha beta

/-- Pairwise transition probabilities (lines 109-119): one k×k matrix per
adjacent pair of time steps. -/
def emXi (pdfQ : ℚ → ℚ → ℚ → ℚ) (sqrtQ : ℚ → ℚ)
    (medias variancias : List ℚ) (P : List (List ℚ))
    (dados : List ℚ) (alpha beta : List (List ℚ)) : List (List (List ℚ)) :=
  (alpha.zip (dados.tail.zip beta.tail)).map (fun td =>
    let aT := td.1
    let dProx := td.2.1
    let bProx := td.2.2
    let denominador := aT.sum + eps10
    List.zipWith (fun ai Pi =>
      (Pi.zip ((medias.zip variancias).zip bProx)).map
        (fun q => ai * q.1 * pdfQ dProx q.2.1.1 (sqrtQ q.2.1.2) * q.2.2 / denominador))
      aT P)

/-- The results of one EM iteration (lines 66-155 of the loop body). -/
structure PassoEM where
  medias : List ℚ
  variancias : List ℚ
  P : List (List ℚ)
  piV : List ℚ
  logVero : ℚ
  alpha : List (List ℚ)
  gamma : List (List ℚ)

/-- One EM iteration: E-step (forward, backward, gamma, xi) followed by the
M-step updates and the log-likelihood of line 143-149. -/
def umaIteracaoEM (pdfQ : ℚ → ℚ → ℚ → ℚ) (sqrtQ logQ : ℚ → ℚ)
    (dados : List ℚ) (k : ℕ)
    (medias variancias : List ℚ) (P : List (List ℚ)) (piV : List ℚ) : PassoEM :=
  let alpha := emForward pdfQ sqrtQ medias variancias P piV k dados
  let beta := emBackward pdfQ sqrtQ medias variancias P k dados
  let gamma := emSuavizadas alpha beta
  let xis := emXi pdfQ sqrtQ medias variancias P dados alpha beta
  let denomGamma := somaColunas gamma k
  let numerM := somaColunas ((gamma.zip dados).map (fun gd => gd.1.map (fun g => g * gd.2))) k
  let medias2 := List.zipWith (· / ·) numerM denomGamma
  let numerV := somaColunas ((gamma.zip dados).map (fun gd =>
    List.zipWith (fun g mj => g * (gd.2 - mj) ^ 2) gd.1 medias2)) k
  let variancias2 := (List.zipWith (· / ·) numerV denomGamma).map
    (fun v => max v (1 / 1000000))
  let somaXi := xis.foldl (fun acc m => List.zipWith (List.zipWith (· + ·)) acc m)
    (List.replicate k (List.replicate k 0))
  let denomP := somaColunas gamma.dropLast k
  let Pnova := (List.zipWith (fun di linhaXi => linhaXi.map (fun x => x / (di + eps10)))
    denomP somaXi).map normEps
  let piNova := gamma.headD (List.replicate k 0)
  let logVero := ((gamma.zip dados).map (fun gd =>
    logQ ((List.zipWith (fun g mv => g * pdfQ gd.2 mv.1 (sqrtQ mv.2))
      gd.1 (medias2.zip variancias2)).sum + eps10))).sum
  ⟨medias2, variancias2, Pnova, piNova, logVero, alpha, gamma⟩

/-- What `ajustar` stores and returns (lines 157-170). -/
structure ResultadoEM where
  medias : List ℚ
  variancias : List ℚ
  matriz_transicao : List (List ℚ)
  prob_inicial : List ℚ
  log_verossimilhanca : ℚ
  n_iteracoes : ℕ
  probabilidades_filtradas : List (List ℚ)
  probabilidades_suavizadas : List (List ℚ)

def resultadoDe (p : PassoEM) (nIter : ℕ) : ResultadoEM :=
  ⟨p.medias, p.variancias, p.P, p.piV, p.logVero, nIter, p.alpha, p.gamma⟩

/-- The EM loop (lines 66-155): run one iteration, stop when the fuel runs
out (`range(max_iter)` exhausted) or when the log-likelihood moved less
than `tol` with respect to the previous iteration (`-np.inf` = `none`
never satisfies the test, as in the source). -/
def lacoEM (pdfQ : ℚ → ℚ → ℚ → ℚ) (sqrtQ logQ : ℚ → ℚ)
    (dados : List ℚ) (k : ℕ) (tol : ℚ) :
    ℕ → ℕ → List ℚ → List ℚ → List (List ℚ) → List ℚ → Option ℚ → ResultadoEM
  | 0, iterIdx, medias, variancias, P, piV, _ =>
    resultadoDe (umaIteracaoEM pdfQ sqrtQ logQ dados k medias variancias P piV)
      (iterIdx + 1)
  | fuel + 1, iterIdx, medias, variancias, P, piV, anterior =>
    let p := umaIteracaoEM pdfQ sqrtQ logQ dados k medias variancias P piV
    let continuar := lacoEM pdfQ sqrtQ logQ dados k tol fuel (iterIdx + 1)
      p.medias p.variancias p.P p.piV (some p.logVero)
    match anterior with
    | none => continuar
    | some lv =>
      if |p.logVero - lv| < tol then resultadoDe p (iterIdx + 1) else continuar

/-- `ajustar` (lines 33-170): percentile-spread initial means, common
initial variance, uniform initial transition matrix and initial
distribution, then the EM loop.  Defined for `max_iter ≥ 1` (the source
would leave its result variables unbound for `max_iter = 0`). -/
def ajustar (pdfQ : ℚ → ℚ → ℚ → ℚ) (sqrtQ logQ : ℚ → ℚ)
    (n_regimes : ℕ) (dados : List ℚ) (max_iter : ℕ) (tol : ℚ) : ResultadoEM :=
  let k := n_regimes
  let medias := (npLinspace 10 90 k).map (fun q => npPercentile dados q)
  let variancias := List.replicate k (npVar dados)
  let P := List.replicate k (List.replicate k (1 / (k : ℚ)))
  let piV := List.replicate k (1 / (k : ℚ))
  lacoEM pdfQ sqrtQ logQ dados k tol (max_iter - 1) 0 medias variancias P piV none

/-!
## `AnalisadorLogPeriodico.calcular_confianca_lppl`
(`bibliotecas/ltbolha/log_periodicidade.py`, lines 154-221)

`np.cos` enters as the parameter `cosQ`.  The LPPL model prediction values
(line 181, computed by `_modelo_lppl` with real powers) enter as the list
`predicao`; the claim is about how the score is assembled from them.
-/

def calcular_confianca_lppl (cosQ : ℚ → ℚ) (log_precos predicao : List ℚ)
    (A B tc_norm m omega phi : ℚ) : ℚ :=
  let ss_res := ((log_precos.zip predicao).map (fun p => (p.1 - p.2) ^ 2)).sum
  let media := log_precos.sum / (log_precos.length : ℚ)
  let ss_tot := (log_precos.map (fun x => (x - media) ^ 2)).sum
  let r_quadrado := 1 - ss_res / ss_tot
  let parametros_validos := (1 / 10 < m ∧ m < 9 / 10) ∧ (3 < omega ∧ omega < 15) ∧ tc_norm > 1
  let C := B * cosQ phi
  let amplitude_relativa := |C| / |A|
  let componente_significativa := amplitude_relativa > 1 / 20
  let conf1 := if ¬ parametros_validos then r_quadrado * (1 / 2) else r_quadrado
  let conf2 := if ¬ componente_significativa then conf1 * (7 / 10) else conf1
  npClip conf2 0 1

/-- The confidence score as the claim words it: start from R², multiply by
the 0.5 penalty when the parameters are implausible (m outside `(0.1,0.9)`,
or ω outside `(3,15)`, or tc not in the future), multiply by the 0.7
penalty when the relative amplitude of the periodic versus trend term is
not greater than 5%, and clip the result to `[0, 1]`. -/
def confianca_lppl_spec (cosQ : ℚ → ℚ) (log_precos predicao : List ℚ)
    (A B tc_norm m omega phi : ℚ) : ℚ :=
  let r2 := 1 - ((log_precos.zip predicao).map (fun p => (p.1 - p.2) ^ 2)).sum /
      (log_precos.map
        (fun x => (x - log_precos.sum / (log_precos.length : ℚ)) ^ 2)).sum
  let implausivel := m ≤ 1 / 10 ∨ 9 / 10 ≤ m ∨ omega ≤ 3 ∨ 15 ≤ omega ∨ tc_norm ≤ 1
  let penalizado1 := if implausivel then r2 * (1 / 2) else r2
  let penalizado2 :=
    if ¬ |B * cosQ phi| / |A| > 1 / 20 then penalizado1 * (7 / 10) else penalizado1
  min 1 (max 0 penalizado2)

/-!
## Helper lemmas
-/

/-- Entrywise nonnegativity of a row. -/
def NNegL (l : List ℚ) : Prop := ∀ x ∈ l, 0 ≤ x

/-- Entrywise nonnegativity of a matrix. -/
def NNegM (m : List (List ℚ)) : Prop := ∀ r ∈ m, NNegL r

lemma nnegL_sum {l : List ℚ} (h : NNegL l) : 0 ≤ l.sum := List.sum_nonneg h

lemma sum_map_div (l : List ℚ) (c : ℚ) :
    (l.map (fun x => x / c)).sum = l.sum / c := by
  induction l with
  | nil => simp
  | cons a t ih => simp [ih, add_div]

lemma mem_zipWith {α β γ : Type} {f : α → β → γ} :
    ∀ {l1 : List α} {l2 : List β} {x : γ}, x ∈ List.zipWith f l1 l2 →
      ∃ a ∈ l1, ∃ b ∈ l2, x = f a b := by
  intro l1
  induction l1 with
  | nil => intro l2 x hx; simp at hx
  | cons a t ih =>
    intro l2 x hx
    cases l2 with
    | nil => simp at hx
    | cons b t2 =>
      rcases List.mem_cons.mp hx with h | h
      · exact ⟨a, List.mem_cons_self a t, b, List.mem_cons_self b t2, h⟩
      · rcases ih h with ⟨a2, ha2, b2, hb2, rfl⟩
        exact ⟨a2, List.mem_cons_of_mem a ha2, b2, List.mem_cons_of_mem b hb2, rfl⟩

lemma nnegL_normEps {l : List ℚ} (h : NNegL l) : NNegL (normEps l) := by
  intro x hx
  rcases List.mem_map.mp hx with ⟨y, hy, rfl⟩
  exact div_nonneg (h y hy) (by linarith [nnegL_sum h, eps10_pos])

lemma sum_normEps (l : List ℚ) :
    (normEps l).sum = l.sum / (l.sum + eps10) := sum_map_div l _

lemma sum_normEps_nonneg {l : List ℚ} (h : NNegL l) : 0 ≤ (normEps l).sum := by
  rw [sum_normEps]
  exact div_nonneg (nnegL_sum h) (by linarith [nnegL_sum h, eps10_pos])

lemma sum_normEps_lt_one {l : List ℚ} (h : NNegL l) : (normEps l).sum < 1 := by
  rw [sum_normEps]
  have hs := nnegL_sum h
  rw [div_lt_one (by linarith [eps10_pos])]
  linarith [eps10_pos]

lemma nnegL_normExato {l : List ℚ} (h : NNegL l) : NNegL (normExato l) := by
  intro x hx
  rcases List.mem_map.mp hx with ⟨y, hy, rfl⟩
  exact div_nonneg (h y hy) (nnegL_sum h)

lemma sum_normExato_nonneg {l : List ℚ} (h : NNegL l) : 0 ≤ (normExato l).sum := by
  unfold normExato
  rw [sum_map_div]
  exact div_nonneg (nnegL_sum h) (nnegL_sum h)

lemma sum_normExato_le_one {l : List ℚ} (h : NNegL l) : (normExato l).sum ≤ 1 := by
  unfold normExato
  rw [sum_map_div]
  rcases eq_or_lt_of_le (nnegL_sum h) with h0 | h0
  · rw [← h0]
    norm_num
  · rw [div_self (ne_of_gt h0)]

lemma nnegL_foldl_zipWith_add (linhas : List (List ℚ)) :
    ∀ acc : List ℚ, NNegL acc → NNegM linhas →
      NNegL (linhas.foldl (fun acc r => List.zipWith (· + ·) acc r) acc) := by
  induction linhas with
  | nil => intro acc hacc _; simpa using hacc
  | cons r t ih =>
    intro acc hacc hm
    simp only [List.foldl_cons]
    apply ih
    · intro x hx
      rcases mem_zipWith hx with ⟨a, ha, b, hb, rfl⟩
      exact add_nonneg (hacc a ha) (hm r (List.mem_cons_self r t) b hb)
    · intro s hs
      exact hm s (List.mem_cons_of_mem r hs)

lemma nnegL_somaColunas {linhas : List (List ℚ)} {k : ℕ} (h : NNegM linhas) :
    NNegL (somaColunas linhas k) := by
  apply nnegL_foldl_zipWith_add linhas _ _ h
  intro x hx
  rw [List.eq_of_mem_replicate hx]

lemma nnegL_vProdM {v : List ℚ} {P : List (List ℚ)} {k : ℕ}
    (hv : NNegL v) (hP : NNegM P) : NNegL (vProdM v P k) := by
  apply nnegL_somaColunas
  intro r hr
  rcases mem_zipWith hr with ⟨vi, hvi, linha, hlinha, rfl⟩
  intro x hx
  rcases List.mem_map.mp hx with ⟨pij, hpij, rfl⟩
  exact mul_nonneg (hv vi hvi) (hP linha hlinha pij hpij)

lemma scanl_inv {α β : Type} (f : β → α → β) (Inv : β → Prop)
    (hstep : ∀ b a, Inv b → Inv (f b a)) :
    ∀ (l : List α) (b : β), Inv b → ∀ r ∈ List.scanl f b l, Inv r := by
  intro l
  induction l with
  | nil =>
    intro b hb r hr
    simp only [List.scanl_nil, List.mem_singleton] at hr
    exact hr ▸ hb
  | cons a t ih =>
    intro b hb r hr
    simp only [List.scanl_cons, List.singleton_append, List.mem_cons] at hr
    rcases hr with rfl | hr
    · exact hb
    · exact ih (f b a) (hstep b a hb) r hr

/-- The invariant of a filtered/smoothed probability row. -/
def LinhaProb (r : List ℚ) : Prop := NNegL r ∧ 0 ≤ r.sum ∧ r.sum ≤ 1

/-- The invariant of a returned transition-matrix row: nonnegative entries
and a sum strictly below 1 (it equals `S / (S + 1e-10)` for the
pre-normalization sum `S ≥ 0`). -/
def LinhaTransicao (r : List ℚ) : Prop := NNegL r ∧ 0 ≤ r.sum ∧ r.sum < 1

lemma linhaProb_normEps {l : List ℚ} (h : NNegL l) : LinhaProb (normEps l) :=
  ⟨nnegL_normEps h, sum_normEps_nonneg h, (sum_normEps_lt_one h).le⟩

lemma linhaTransicao_normEps {l : List ℚ} (h : NNegL l) : LinhaTransicao (normEps l) :=
  ⟨nnegL_normEps h, sum_normEps_nonneg h, sum_normEps_lt_one h⟩

lemma emForward_linhas (pdfQ : ℚ → ℚ → ℚ → ℚ) (sqrtQ : ℚ → ℚ)
    (medias variancias : List ℚ) (P : List (List ℚ)) (piV : List ℚ) (k : ℕ)
    (hpdf : ∀ x mu s, 0 ≤ pdfQ x mu s) (hpi : NNegL piV) (hP : NNegM P) :
    ∀ (dados : List ℚ),
      ∀ r ∈ emForward pdfQ sqrtQ medias variancias P piV k dados, LinhaProb r := by
  intro dados
  cases dados with
  | nil => intro r hr; simp [emForward] at hr
  | cons d0 resto =>
    intro r hr
    simp only [emForward] at hr
    have hbase : NNegL (List.zipWith
        (fun pj mv => pj * pdfQ d0 mv.1 (sqrtQ mv.2)) piV (medias.zip variancias)) := by
      intro x hx
      rcases mem_zipWith hx with ⟨pj, hpj, mv, _, rfl⟩
      exact mul_nonneg (hpi pj hpj) (hpdf _ _ _)
    refine scanl_inv _ LinhaProb ?_ resto _
      ⟨nnegL_normExato hbase, sum_normExato_nonneg hbase, sum_normExato_le_one hbase⟩ r hr
    intro aPrev d hPrev
    apply linhaProb_normEps
    intro x hx
    rcases mem_zipWith hx with ⟨s, hs, mv, _, rfl⟩
    exact mul_nonneg (nnegL_vProdM hPrev.1 hP s hs) (hpdf _ _ _)

lemma emBackward_nneg (pdfQ : ℚ → ℚ → ℚ → ℚ) (sqrtQ : ℚ → ℚ)
    (medias variancias : List ℚ) (P : List (List ℚ)) (k : ℕ)
    (hpdf : ∀ x mu s, 0 ≤ pdfQ x mu s) (hP : NNegM P) :
    ∀ dados : List ℚ, NNegM (emBackward pdfQ sqrtQ medias variancias P k dados)
  | [] => by
    intro r hr
    simp [emBackward] at hr
  | [d] => by
    intro r hr
    simp only [emBackward, List.mem_singleton] at hr
    subst hr
    intro x hx
    rw [List.eq_of_mem_replicate hx]
    norm_num
  | d1 :: d2 :: resto => by
    have ih := emBackward_nneg pdfQ sqrtQ medias variancias P k hpdf hP (d2 :: resto)
    intro r hr
    simp only [emBackward, List.mem_cons] at hr
    rcases hr with rfl | hr
    · apply nnegL_normEps
      intro x hx
      rcases List.mem_map.mp hx with ⟨Pi, hPi, rfl⟩
      apply List.sum_nonneg
      intro y hy
      rcases List.mem_map.mp hy with ⟨q, hq, rfl⟩
      have hq1 := List.of_mem_zip hq
      have hq2 := List.of_mem_zip hq1.2
      have hbProx : NNegL ((emBackward pdfQ sqrtQ medias variancias P k
          (d2 :: resto)).headD (List.replicate k 1)) := by
        cases hcase : emBackward pdfQ sqrtQ medias variancias P k (d2 :: resto) with
        | nil =>
          intro x hx
          have hx2 : x ∈ List.replicate k 1 := by simpa using hx
          rw [List.eq_of_mem_replicate hx2]
          norm_num
        | cons b bs =>
          have : b ∈ emBackward pdfQ sqrtQ medias variancias P k (d2 :: resto) := by
            rw [hcase]; exact List.mem_cons_self b bs
          simpa using ih b this
      exact mul_nonneg (mul_nonneg (hP Pi hPi q.1 hq1.1) (hpdf _ _ _))
        (hbProx q.2.2 hq2.2)
    · exact ih r hr

lemma emSuavizadas_linhas {alpha beta : List (List ℚ)}
    (ha : NNegM alpha) (hb : NNegM beta) :
    ∀ r ∈ emSuavizadas alpha beta, LinhaProb r := by
  intro r hr
  rcases mem_zipWith hr with ⟨a, hA, b, hB, rfl⟩
  apply linhaProb_normEps
  intro x hx
  rcases mem_zipWith hx with ⟨u, hu, v, hv, rfl⟩
  exact mul_nonneg (ha a hA u hu) (hb b hB v hv)

lemma emXi_nneg (pdfQ : ℚ → ℚ → ℚ → ℚ) (sqrtQ : ℚ → ℚ)
    (medias variancias : List ℚ) (P : List (List ℚ))
    (dados : List ℚ) (alpha beta : List (List ℚ))
    (hpdf : ∀ x mu s, 0 ≤ pdfQ x mu s) (hP : NNegM P)
    (halpha : NNegM alpha) (hbeta : NNegM beta) :
    ∀ m ∈ emXi pdfQ sqrtQ medias variancias P dados alpha beta, NNegM m := by
  intro m hm
  rcases List.mem_map.mp hm with ⟨td, htd, rfl⟩
  have htd1 := List.of_mem_zip htd
  have htd2 := List.of_mem_zip htd1.2
  have haT : NNegL td.1 := halpha td.1 htd1.1
  have hbProx : NNegL td.2.2 := hbeta td.2.2 (List.mem_of_mem_tail htd2.2)
  intro linha hlinha
  rcases mem_zipWith hlinha with ⟨ai, hai, Pi, hPi, rfl⟩
  intro x hx
  rcases List.mem_map.mp hx with ⟨q, hq, rfl⟩
  have hq1 := List.of_mem_zip hq
  have hq2 := List.of_mem_zip hq1.2
  apply div_nonneg
  · exact mul_nonneg (mul_nonneg (mul_nonneg (haT ai hai) (hP Pi hPi q.1 hq1.1))
      (hpdf _ _ _)) (hbProx q.2.2 hq2.2)
  · linarith [nnegL_sum haT, eps10_pos]

lemma nnegM_foldl_zipWith_add (ms : List (List (List ℚ))) :
    ∀ acc : List (List ℚ), NNegM acc → (∀ m ∈ ms, NNegM m) →
      NNegM (ms.foldl (fun acc m => List.zipWith (List.zipWith (· + ·)) acc m) acc) := by
  induction ms with
  | nil => intro acc hacc _; simpa using hacc
  | cons m t ih =>
    intro acc hacc hms
    simp only [List.foldl_cons]
    apply ih
    · intro r hr
      rcases mem_zipWith hr with ⟨a, ha, b, hb, rfl⟩
      intro x hx
      rcases mem_zipWith hx with ⟨u, hu, v, hv, rfl⟩
      exact add_nonneg (hacc a ha u hu) (hms m (List.mem_cons_self m t) b hb v hv)
    · intro m2 hm2
      exact hms m2 (List.mem_cons_of_mem m hm2)

lemma umaIteracaoEM_inv (pdfQ : ℚ → ℚ → ℚ → ℚ) (sqrtQ logQ : ℚ → ℚ)
    (dados : List ℚ) (k : ℕ) (medias variancias : List ℚ)
    (P : List (List ℚ)) (piV : List ℚ)
    (hpdf : ∀ x mu s, 0 ≤ pdfQ x mu s) (hP : NNegM P) (hpi : NNegL piV) :
    (∀ r ∈ (umaIteracaoEM pdfQ sqrtQ logQ dados k medias variancias P piV).P,
        LinhaTransicao r) ∧
    (∀ r ∈ (umaIteracaoEM pdfQ sqrtQ logQ dados k medias variancias P piV).alpha,
        LinhaProb r) ∧
    (∀ r ∈ (umaIteracaoEM pdfQ sqrtQ logQ dados k medias variancias P piV).gamma,
        LinhaProb r) ∧
    NNegL (umaIteracaoEM pdfQ sqrtQ logQ dados k medias variancias P piV).piV := by
  have halpha := emForward_linhas pdfQ sqrtQ medias variancias P piV k
    hpdf hpi hP dados
  have halphaM : NNegM (emForward pdfQ sqrtQ medias variancias P piV k dados) :=
    fun r hr => (halpha r hr).1
  have hbeta := emBackward_nneg pdfQ sqrtQ medias variancias P k hpdf hP dados
  have hgamma := emSuavizadas_linhas halphaM hbeta
  have hgammaM : NNegM (emSuavizadas
      (emForward pdfQ sqrtQ medias variancias P piV k dados)
      (emBackward pdfQ sqrtQ medias variancias P k dados)) :=
    fun r hr => (hgamma r hr).1
  have hxi := emXi_nneg pdfQ sqrtQ medias variancias P dados
    (emForward pdfQ sqrtQ medias variancias P piV k dados)
    (emBackward pdfQ sqrtQ medias variancias P k dados)
    hpdf hP halphaM hbeta
  refine ⟨?_, ?_, ?_, ?_⟩
  · intro r hr
    simp only [umaIteracaoEM] at hr
    rcases List.mem_map.mp hr with ⟨r0, hr0, rfl⟩
    apply linhaTransicao_normEps
    rcases mem_zipWith hr0 with ⟨di, hdi, linhaXi, hlinhaXi, rfl⟩
    have hsomaXi : NNegM ((emXi pdfQ sqrtQ medias variancias P dados
        (emForward pdfQ sqrtQ medias variancias P piV k dados)
        (emBackward pdfQ sqrtQ medias variancias P k dados)).foldl
          (fun acc m => List.zipWith (List.zipWith (· + ·)) acc m)
          (List.replicate k (List.replicate k 0))) := by
      apply nnegM_foldl_zipWith_add _ _ _ hxi
      intro r2 hr2
      rw [List.eq_of_mem_replicate hr2]
      intro x hx
      rw [List.eq_of_mem_replicate hx]
    have hdi0 : 0 ≤ di := by
      have : NNegM (emSuavizadas
          (emForward pdfQ sqrtQ medias variancias P piV k dados)
          (emBackward pdfQ sqrtQ medias variancias P k dados)).dropLast :=
        fun r2 hr2 => hgammaM r2 ((List.dropLast_sublist _).subset hr2)
      exact nnegL_somaColunas this di hdi
    intro x hx
    rcases List.mem_map.mp hx with ⟨y, hy, rfl⟩
    exact div_nonneg (hsomaXi linhaXi hlinhaXi y hy) (by linarith [eps10_pos])
  · intro r hr
    simp only [umaIteracaoEM] at hr
    exact halpha r hr
  · intro r hr
    simp only [umaIteracaoEM] at hr
    exact hgamma r hr
  · simp only [umaIteracaoEM]
    cases hg : emSuavizadas
        (emForward pdfQ sqrtQ medias variancias P piV k dados)
        (emBackward pdfQ sqrtQ medias variancias P k dados) with
    | nil =>
      intro x hx
      have hx2 : x ∈ List.replicate k (0 : ℚ) := by simpa using hx
      rw [List.eq_of_mem_replicate hx2]
    | cons g t =>
      intro x hx
      have hx2 : x ∈ g := by simpa using hx
      exact hgammaM g (by rw [hg]; exact List.mem_cons_self g t) x hx2

lemma lacoEM_inv (pdfQ : ℚ → ℚ → ℚ → ℚ) (sqrtQ logQ : ℚ → ℚ)
    (dados : List ℚ) (k : ℕ) (tol : ℚ)
    (hpdf : ∀ x mu s, 0 ≤ pdfQ x mu s) :
    ∀ (fuel iterIdx : ℕ) (medias variancias : List ℚ) (P : List (List ℚ))
      (piV : List ℚ) (anterior : Option ℚ), NNegM P → NNegL piV →
      (∀ r ∈ (lacoEM pdfQ sqrtQ logQ dados k tol fuel iterIdx medias variancias
          P piV anterior).matriz_transicao, LinhaTransicao r) ∧
      (∀ r ∈ (lacoEM pdfQ sqrtQ logQ dados k tol fuel iterIdx medias variancias
          P piV anterior).probabilidades_filtradas, LinhaProb r) ∧
      (∀ r ∈ (lacoEM pdfQ sqrtQ logQ dados k tol fuel iterIdx medias variancias
          P piV anterior).probabilidades_suavizadas, LinhaProb r) := by
  intro fuel
  induction fuel with
  | zero =>
    intro iterIdx medias variancias P piV anterior hP hpi
    have h := umaIteracaoEM_inv pdfQ sqrtQ logQ dados k medias variancias P piV
      hpdf hP hpi
    simp only [lacoEM, resultadoDe]
    exact ⟨h.1, h.2.1, h.2.2.1⟩
  | succ n ih =>
    intro iterIdx medias variancias P piV anterior hP hpi
    have h := umaIteracaoEM_inv pdfQ sqrtQ logQ dados k medias variancias P piV
      hpdf hP hpi
    have hPn : NNegM (umaIteracaoEM pdfQ sqrtQ logQ dados k medias variancias
        P piV).P := fun r hr => (h.1 r hr).1
    have hpin : NNegL (umaIteracaoEM pdfQ sqrtQ logQ dados k medias variancias
        P piV).piV := h.2.2.2
    cases anterior with
    | none =>
      simp only [lacoEM]
      exact ih _ _ _ _ _ _ hPn hpin
    | some lv =>
      simp only [lacoEM]
      by_cases hconv : |(umaIteracaoEM pdfQ sqrtQ logQ dados k medias variancias
          P piV).logVero - lv| < tol
      · rw [if_pos hconv]
        simp only [resultadoDe]
        exact ⟨h.1, h.2.1, h.2.2.1⟩
      · rw [if_neg hconv]
        exact ih _ _ _ _ _ _ hPn hpin

/-- `np.clip` with ordered cut points is monotone in its argument. -/
lemma npClip_mono {x y lo hi : ℚ} (hlohi : lo ≤ hi) (h : x ≤ y) :
    npClip x lo hi ≤ npClip y lo hi := by
  unfold npClip
  split_ifs <;> linarith

/-- A strictly increasing rational function with values in `(0, 1)`: a
stand-in having exactly the properties of the standard normal CDF that the
monotonicity claim uses. -/
def cdfToy (z : ℚ) : ℚ := 1 / 2 + z / (2 * (1 + |z|))

lemma cdfToy_mem (z : ℚ) : 0 < cdfToy z ∧ cdfToy z < 1 := by
  unfold cdfToy
  have hpos : (0:ℚ) < 2 * (1 + |z|) := by positivity
  have h1 : z < 1 + |z| := by linarith [le_abs_self z]
  have h2 : -(1 + |z|) < z := by linarith [neg_abs_le z]
  have hu : z / (2 * (1 + |z|)) < 1 / 2 := by
    rw [div_lt_iff hpos]; linarith
  have hl : -(1 / 2) < z / (2 * (1 + |z|)) := by
    rw [lt_div_iff hpos]; linarith
  constructor <;> linarith

lemma cdfToy_strictMono : StrictMono cdfToy := by
  intro a b hab
  unfold cdfToy
  have ha : (0:ℚ) < 2 * (1 + |a|) := by positivity
  have hb : (0:ℚ) < 2 * (1 + |b|) := by positivity
  have key : a * (2 * (1 + |b|)) < b * (2 * (1 + |a|)) := by
    rcases le_or_lt 0 a with h1 | h1
    · have hb0 : 0 < b := lt_of_le_of_lt h1 hab
      rw [abs_of_nonneg h1, abs_of_pos hb0]; nlinarith
    · rcases le_or_lt 0 b with h2 | h2
      · rw [abs_of_neg h1, abs_of_nonneg h2]; nlinarith
      · rw [abs_of_neg h1, abs_of_neg h2]; nlinarith
  have := (div_lt_div_iff ha hb).mpr key
  linarith

/-!
## Claim theorems
-/

/-- C1: the reported crisis probability equals exactly 1 whenever the
distance `d = tc_mean - last_observed_time` is ≤ 0, and otherwise equals
the standard normal CDF evaluated at `(30 - d) / (σ + ε)` clipped to
`[0, 1]`, with `ε = 1e-10`; verified for every CDF and all inputs as the
equality of the code's computation with the spec formula. -/
theorem C1_formula_probabilidade_crise (cdf : ℚ → ℚ) (d σ : ℚ) :
    calcular_probabilidade_crise cdf d σ = probabilidade_crise_spec cdf d σ := by
  unfold calcular_probabilidade_crise probabilidade_crise_spec
  rcases le_or_lt d 0 with h | h
  · rw [if_pos h, if_pos h]
  · rw [if_neg (not_le.mpr h), if_neg (not_le.mpr h)]
    exact npClip_eq_min_max _ 0 1 (by norm_num)

/-- C2 counterexample: monotonicity in shrinking σ fails for fixed
`d = 40 > 30`, because the z-score `(30 - d)/(σ + ε)` is negative there and
shrinking σ drives it further down; with the strictly increasing bounded
CDF stand-in, σ = 1 yields a strictly smaller probability than σ = 2. -/
theorem C2_contraexemplo :
    ¬ ∀ cdf : ℚ → ℚ, StrictMono cdf → (∀ z, 0 < cdf z ∧ cdf z < 1) →
      ∀ d σ1 σ2 : ℚ, 0 < d → 0 < σ2 → σ2 < σ1 →
        calcular_probabilidade_crise cdf d σ1 ≤
          calcular_probabilidade_crise cdf d σ2 := by
  intro h
  have h40 := h cdfToy cdfToy_strictMono cdfToy_mem 40 2 1
    (by norm_num) (by norm_num) (by norm_num)
  have hlt : calcular_probabilidade_crise cdfToy 40 1 <
      calcular_probabilidade_crise cdfToy 40 2 := by
    simp only [calcular_probabilidade_crise, cdfToy, npClip, eps10]
    norm_num [abs_of_pos]
  exact absurd h40 (not_le.mpr hlt)

/-- C2 amended: for every fixed `0 < d ≤ 30` the consensus crisis
probability is monotonically non-decreasing as σ decreases, for any
monotone CDF: if `0 < σ2 ≤ σ1` then the probability at σ2 is at least the
probability at σ1.  (The original claim extended this to all `d > 0`; it
fails for `d > 30`.) -/
theorem C2_emendado (cdf : ℚ → ℚ) (hm : Monotone cdf) (d σ1 σ2 : ℚ)
    (hd0 : 0 < d) (hd30 : d ≤ 30) (hσ2 : 0 < σ2) (hσ : σ2 ≤ σ1) :
    calcular_probabilidade_crise cdf d σ1 ≤
      calcular_probabilidade_crise cdf d σ2 := by
  unfold calcular_probabilidade_crise
  rw [if_neg (not_le.mpr hd0), if_neg (not_le.mpr hd0)]
  have h2 : 0 < σ2 + eps10 := add_pos hσ2 eps10_pos
  have h1 : 0 < σ1 + eps10 := by linarith
  have hz : (30 - d) / (σ1 + eps10) ≤ (30 - d) / (σ2 + eps10) := by
    apply div_le_div_of_nonneg_left (by linarith) h2 (by linarith)
  exact npClip_mono (by norm_num) (hm hz)

/-- C2 witness: the amended theorem applied at the constant CDF `1/2`,
`d = 10`, `σ1 = 2`, `σ2 = 1`. -/
theorem C2_emendado_testemunha :
    calcular_probabilidade_crise (fun _ => 1 / 2) 10 2 ≤
      calcular_probabilidade_crise (fun _ => 1 / 2) 10 1 :=
  C2_emendado (fun _ => 1 / 2) monotone_const 10 2 1
    (by norm_num) (by norm_num) (by norm_num) (by norm_num)

/-- C4 counterexample: the fitted transition matrix rows need not sum to 1
within any reasonable tolerance.  On the one-point series `[0]` with K = 2
no adjacent pair of time steps exists, so every expected transition count
is zero and the returned matrix is identically zero: each row sums to 0,
refuting the claim (here read with the generous tolerance `10⁻³`) even for
a strictly positive emission density. -/
theorem C4_contraexemplo :
    ¬ ∀ pdfQ : ℚ → ℚ → ℚ → ℚ, (∀ x mu s, 0 < pdfQ x mu s) →
      ∀ (sqrtQ logQ : ℚ → ℚ) (k : ℕ), 1 ≤ k →
      ∀ dados : List ℚ, dados ≠ [] →
      ∀ max_iter : ℕ, 1 ≤ max_iter → ∀ tol : ℚ,
      ∀ linha ∈ (ajustar pdfQ sqrtQ logQ k dados max_iter tol).matriz_transicao,
        |linha.sum - 1| ≤ 1 / 1000 := by
  intro h
  have heval : (ajustar (fun _ _ _ => (1 : ℚ)) id id 2 [0] 1 (1 / 10000)).matriz_transicao
      = [[0, 0], [0, 0]] := by
    norm_num [ajustar, lacoEM, umaIteracaoEM, emForward, emBackward, emSuavizadas,
      emXi, somaColunas, vProdM, normEps, normExato, npLinspace, npPercentile, npVar,
      resultadoDe, eps10, List.range_succ, List.replicate]
  have h2 := h (fun _ _ _ => 1) (fun _ _ _ => one_pos) id id 2 (by norm_num) [0]
    (by simp) 1 (le_refl 1) (1 / 10000) [0, 0]
  rw [heval] at h2
  have h3 := h2 (by simp)
  norm_num at h3

/-- C4 amended: after any completed fit with a nonnegative emission density,
every row of the returned transition matrix has nonnegative entries and a
sum in `[0, 1)` — it equals `S / (S + 1e-10)` for the row's pre-normalization
sum `S ≥ 0`, hence is strictly below 1 and, for degenerate inputs such as a
one-point series, can be as low as 0 — and every row of the stored filtered
and smoothed probability matrices has nonnegative entries and sum in
`[0, 1]`; none of the three is guaranteed to sum to 1 within tolerance. -/
theorem C4_emendado (pdfQ : ℚ → ℚ → ℚ → ℚ) (sqrtQ logQ : ℚ → ℚ)
    (n_regimes : ℕ) (dados : List ℚ) (max_iter : ℕ) (tol : ℚ)
    (hpdf : ∀ x mu s, 0 ≤ pdfQ x mu s) :
    (∀ r ∈ (ajustar pdfQ sqrtQ logQ n_regimes dados max_iter tol).matriz_transicao,
        LinhaTransicao r) ∧
    (∀ r ∈ (ajustar pdfQ sqrtQ logQ n_regimes dados max_iter
        tol).probabilidades_filtradas, LinhaProb r) ∧
    (∀ r ∈ (ajustar pdfQ sqrtQ logQ n_regimes dados max_iter
        tol).probabilidades_suavizadas, LinhaProb r) := by
  have hP0 : NNegM (List.replicate n_regimes
      (List.replicate n_regimes (1 / (n_regimes : ℚ)))) := by
    intro r hr
    rw [List.eq_of_mem_replicate hr]
    intro x hx
    rw [List.eq_of_mem_replicate hx]
    exact div_nonneg zero_le_one (Nat.cast_nonneg n_regimes)
  have hpi0 : NNegL (List.replicate n_regimes (1 / (n_regimes : ℚ))) := by
    intro x hx
    rw [List.eq_of_mem_replicate hx]
    exact div_nonneg zero_le_one (Nat.cast_nonneg n_regimes)
  have h := lacoEM_inv pdfQ sqrtQ logQ dados n_regimes tol hpdf (max_iter - 1) 0
    ((npLinspace 10 90 n_regimes).map (fun q => npPercentile dados q))
    (List.replicate n_regimes (npVar dados))
    (List.replicate n_regimes (List.replicate n_regimes (1 / (n_regimes : ℚ))))
    (List.replicate n_regimes (1 / (n_regimes : ℚ)))
    none hP0 hpi0
  simpa only [ajustar] using h

/-- C4 witness: the amended theorem at the constant density 1 on the series
`[0]` with K = 2. -/
theorem C4_emendado_testemunha :
    (∀ r ∈ (ajustar (fun _ _ _ => (1 : ℚ)) id id 2 [0] 1
        (1 / 10000)).matriz_transicao, LinhaTransicao r) ∧
    (∀ r ∈ (ajustar (fun _ _ _ => (1 : ℚ)) id id 2 [0] 1
        (1 / 10000)).probabilidades_filtradas, LinhaProb r) ∧
    (∀ r ∈ (ajustar (fun _ _ _ => (1 : ℚ)) id id 2 [0] 1
        (1 / 10000)).probabilidades_suavizadas, LinhaProb r) :=
  C4_emendado (fun _ _ _ => 1) id id 2 [0] 1 (1 / 10000)
    (fun _ _ _ => zero_le_one)

/-- C5 counterexample: nothing validates a caller-supplied `restricao_tc`.
With `restricao_tc = (1/2, 4/5)` the optimizer may legitimately return the
in-bounds value `tc_norm = 1/2`, and on times running from 0 to 1 the
de-normalized critical time is `1/2`, not beyond the last observed time. -/
theorem C5_contraexemplo :
    ¬ ∀ (restricao : Option (ℚ × ℚ)) (t0 tUlt tc_norm : ℚ),
      t0 < tUlt →
      (lppl_tc_bounds restricao).1 ≤ tc_norm →
      tc_norm ≤ (lppl_tc_bounds restricao).2 →
      tUlt < desnormalizar_tc t0 tUlt tc_norm := by
  intro h
  have := h (some (1 / 2, 4 / 5)) 0 1 (1 / 2) (by norm_num)
    (by norm_num [lppl_tc_bounds]) (by norm_num [lppl_tc_bounds])
  norm_num [desnormalizar_tc] at this

/-- C5 amended: whenever the effective lower tc bound exceeds 1 in
normalized time — which holds for the default bounds `(1.01, 1.5)` used when
no `restricao_tc` is supplied — every in-bounds optimizer result
de-normalizes to a critical time strictly beyond the last observed time of
any series with strictly increasing times. -/
theorem C5_emendado (restricao : Option (ℚ × ℚ)) (t0 tUlt tc_norm : ℚ)
    (ht : t0 < tUlt) (hlo : (lppl_tc_bounds restricao).1 ≤ tc_norm)
    (hmin : 1 < (lppl_tc_bounds restricao).1) :
    tUlt < desnormalizar_tc t0 tUlt tc_norm := by
  unfold desnormalizar_tc
  have h1 : 1 < tc_norm := lt_of_lt_of_le hmin hlo
  nlinarith [mul_pos (sub_pos.mpr h1) (sub_pos.mpr ht)]

/-- C5 witness: the amended theorem with default bounds, times 0..1 and the
in-bounds optimizer output `tc_norm = 1.1`. -/
theorem C5_emendado_testemunha : (1 : ℚ) < desnormalizar_tc 0 1 (11 / 10) :=
  C5_emendado none 0 1 (11 / 10) (by norm_num)
    (by norm_num [lppl_tc_bounds]) (by norm_num [lppl_tc_bounds])

/-- C6 counterexample: at exactly zero remaining days the code returns
`IMEDIATO` (the `dias < 0` test fails), while the claim's buckets place
`d ≤ 0` in `expired`. -/
theorem C6_contraexemplo :
    ¬ ∀ tc_estimado tempo_atual : ℚ,
      (nivel_urgencia tc_estimado tempo_atual).1 =
        nivel_urgencia_reivindicado (tc_estimado - tempo_atual) := by
  intro h
  have h00 := h 0 0
  have h2 : ("IMEDIATO" : String) = "EXPIRADO" := by
    simpa [nivel_urgencia, nivel_urgencia_reivindicado] using h00
  exact absurd h2 (by decide)

/-- C6 amended: the urgency level is `expired` when `d < 0`, `immediate`
when `0 ≤ d < 5`, `urgent` when `5 ≤ d < 20`, `moderate` when
`20 ≤ d < 60`, and `low` otherwise. -/
theorem C6_emendado (tc_estimado tempo_atual : ℚ) :
    (nivel_urgencia tc_estimado tempo_atual).1 =
      nivel_urgencia_emendado (tc_estimado - tempo_atual) := by
  simp only [nivel_urgencia, nivel_urgencia_emendado]
  split_ifs <;> rfl

/-- C7 counterexample: for a self-transition probability of exactly 0.9 the
reported sojourn time is `1 / (0.1 + 1e-10)`, which is not 10: the code
adds the guard `1e-10` to the denominator that the claim's formula
`1 / (1 - P[i][i])` omits. -/
theorem C7_contraexemplo :
    duracao_esperada (fun _ _ => 9 / 10 : Fin 1 → Fin 1 → ℚ) 0 ≠ 10 := by
  norm_num [duracao_esperada, eps10]

/-- C7 amended: the expected sojourn time reported for regime `i` equals
`1 / (1 - P[i][i] + 1e-10)`; in particular a self-transition probability of
exactly 0.9 yields `10000000000 / 1000000001` (≈ 9.99999999), not 10. -/
theorem C7_emendado {k : ℕ} (P : Fin k → Fin k → ℚ) (i : Fin k)
    (h : P i i = 9 / 10) :
    duracao_esperada P i = 10000000000 / 1000000001 := by
  unfold duracao_esperada
  rw [h]
  norm_num [eps10]

/-- C7 witness: the amended theorem at the 1×1 matrix with entry 0.9. -/
theorem C7_emendado_testemunha :
    duracao_esperada (fun _ _ => 9 / 10 : Fin 1 → Fin 1 → ℚ) 0 =
      10000000000 / 1000000001 :=
  C7_emendado (fun _ _ => 9 / 10) 0 rfl

/-- C9: whenever the fitted volatility growth rate satisfies `b ≤ 0`, the
fallback branch binds only the spelling `confiança` while the return
statement reads `confianca`, so the method raises `NameError` instead of
returning its fallback estimate, and the surrounding `try/except` therefore
always excludes it from the consensus ensemble. -/
theorem C9_nameerror_volatilidade (logQ : ℚ → ℚ)
    (b sigma_atual t_atual ultimoTempo horizonte_maximo : ℚ) (hb : b ≤ 0) :
    estimar_tc_volatilidade_retorno logQ b sigma_atual t_atual ultimoTempo
        horizonte_maximo = Except.error "NameError" ∧
      excecaoParaOption (estimar_tc_volatilidade_retorno logQ b sigma_atual
        t_atual ultimoTempo horizonte_maximo) = none := by
  have hb2 : ¬ b > 0 := not_lt.mpr hb
  simp only [estimar_tc_volatilidade_retorno, if_neg hb2]
  exact ⟨rfl, rfl⟩

/-- C9 witness: the theorem at `b = 0` with concrete remaining inputs. -/
theorem C9_testemunha :
    estimar_tc_volatilidade_retorno id 0 1 2 3 252 = Except.error "NameError" ∧
      excecaoParaOption (estimar_tc_volatilidade_retorno id 0 1 2 3 252) = none :=
  C9_nameerror_volatilidade id 0 1 2 3 252 (by norm_num)

/-- C3: failures of sub-estimators are isolated — the consensus succeeds
exactly when at least one of the four methods succeeds (so it raises the
fatal error if and only if all four fail), and the surviving weighted
combination is built from exactly the methods that succeeded, the failed
ones being excluded. -/
theorem C3_degradacao_consenso (sqrtQ cdf : ℚ → ℚ)
    (rLppl rSing rOu rVol : Option (ℚ × ℚ)) (ultimoTempo : ℚ) :
    (consensoOk (estimar_multiplos_metodos sqrtQ cdf rLppl rSing rOu rVol ultimoTempo) =
      (rLppl.isSome || rSing.isSome || rOu.isSome || rVol.isSome)) ∧
    ∀ res, estimar_multiplos_metodos sqrtQ cdf rLppl rSing rOu rVol ultimoTempo =
        Except.ok res →
      res.estimativas.map Prod.fst = tagsSobreviventes rLppl rSing rOu rVol := by
  constructor
  · rcases rLppl with _ | ⟨t1, c1⟩ <;> rcases rSing with _ | ⟨t2, c2⟩ <;>
      rcases rOu with _ | ⟨t3, c3⟩ <;> rcases rVol with _ | ⟨t4, c4⟩ <;>
      simp [estimar_multiplos_metodos, consensoOk]
  · intro res hres
    rcases rLppl with _ | ⟨t1, c1⟩ <;> rcases rSing with _ | ⟨t2, c2⟩ <;>
      rcases rOu with _ | ⟨t3, c3⟩ <;> rcases rVol with _ | ⟨t4, c4⟩ <;>
      simp [estimar_multiplos_metodos] at hres <;>
      simp [← hres, tagsSobreviventes]

/-- C8: the LPPL confidence score starts from the R² of the fit against
log-prices, is halved when the fitted parameters are implausible
(m outside `(0.1,0.9)`, or ω outside `(3,15)`, or tc not in the future),
is further multiplied by 0.7 when the relative amplitude of the periodic
term versus the trend term is not greater than 5%, and is clipped to
`[0,1]`; proved as the equality of the code's computation with the spec
formula for all inputs. -/
theorem C8_confianca_lppl (cosQ : ℚ → ℚ) (log_precos predicao : List ℚ)
    (A B tc_norm m omega phi : ℚ) :
    calcular_confianca_lppl cosQ log_precos predicao A B tc_norm m omega phi =
      confianca_lppl_spec cosQ log_precos predicao A B tc_norm m omega phi := by
  have hiff : (¬ ((1 / 10 < m ∧ m < 9 / 10) ∧ (3 < omega ∧ omega < 15) ∧ tc_norm > 1)) ↔
      (m ≤ 1 / 10 ∨ 9 / 10 ≤ m ∨ omega ≤ 3 ∨ 15 ≤ omega ∨ tc_norm ≤ 1) := by
    simp only [not_and_or, not_lt, gt_iff_lt]
    tauto
  simp only [calcular_confianca_lppl, confianca_lppl_spec]
  rw [npClip_eq_min_max _ 0 1 (by norm_num)]
  simp only [hiff]

/-- C10: the regime forecast ignores its `dados` argument — both branches of
the `if dados is not None` test read the same stored last filtered
probabilities — so any two choices of supplied data produce identical
forecasts; the output depends only on the stored probabilities and the
fitted transition matrix iterated `horizonte` times. -/
theorem C10_dados_sem_influencia {k : ℕ} (ajustado : Bool)
    (ultimaFiltrada : Fin k → ℚ) (P : Fin k → Fin k → ℚ)
    (dados dados2 : Option (List ℚ)) (horizonte : ℕ) :
    prever_regime ajustado ultimaFiltrada P dados horizonte =
      prever_regime ajustado ultimaFiltrada P dados2 horizonte := by
  unfold prever_regime
  cases dados <;> cases dados2 <;> rfl

end PrevisorCrises
